/-
  Verification of the tele2wa sticker-conversion pipeline (src/bot.py, src/bot2.py).

  Shallow embedding: the pure/algorithmic parts of the Python program are
  translated into executable Lean definitions and the claims of the spec are proved
  or refuted against them.  Effects (network, filesystem, subprocess) are
  modelled by explicit oracles passed in as function arguments; machine floats
  that only carry small integers or exact halves are modelled by ℚ.
-/
import Mathlib

namespace Tele2Wa

/-! ### Packaging: `chunk_by_30`

Python (src/bot2.py:327-329, identical in src/bot.py:349-351):
```
def chunk_by_30(files):
    return [files[i:i+30] for i in range(0, len(files), 30)]
```
`range(0, len, 30)` enumerates `0, 30, 60, …`, i.e. `30*k` for
`k < ⌈len/30⌉`, and the slice `files[i:i+30]` is `(files.drop i).take 30`. -/

def chunk_by_30 (files : List α) : List (List α) :=
  (List.range ((files.length + 29) / 30)).map (fun k => (files.drop (30 * k)).take 30)

/-- Structural-recursion form of the same function, used for induction. -/
def chunkRec : List α → List (List α)
  | [] => []
  | x :: xs => ((x :: xs).take 30) :: chunkRec (xs.drop 29)
termination_by files => files.length
decreasing_by
  simp only [List.length_drop, List.length_cons]
  omega

/-! ### Retrying fetcher: `_retry_fetch_bytes` / `_retry_fetch_json`

Python (src/bot2.py:139-163, identical in src/bot.py:139-163; the two helpers
differ only in the body read, `resp.json()` vs `resp.read()`, which is the
type parameter `β` below):
```
async def _retry_fetch_bytes(session, url, retries=3, backoff=1.6):
    last = None
    for i in range(retries):
        try:
            async with session.get(url) as resp:
                if resp.status in (429, 500, 502, 503, 504):
                    raise aiohttp.ClientResponseError(...)
                return await resp.read()
        except Exception as e:
            last = e
            await asyncio.sleep(backoff ** i)
    raise last
```
The whole `try` body of attempt `i` is modelled by an oracle
`f : ℕ → Except ε β`: `f i = .error e` covers both a transient status
(the explicit `raise` on 429/500/502/503/504) and any other exception.
The trace records how many attempts were made, which sleeps were scheduled
(one of `backoff ** i` after every failed attempt, including the last), and
the outcome; `.error none` is the `raise None` case reachable only with
`retries = 0`. -/

structure FetchTrace (ε β : Type u) where
  attempts : ℕ
  delays : List ℚ
  outcome : Except (Option ε) β

def retryLoop (f : ℕ → Except ε β) (backoff : ℚ) : ℕ → ℕ → Option ε → FetchTrace ε β
  | 0, _, last => ⟨0, [], Except.error last⟩
  | n + 1, i, _ =>
    match f i with
    | Except.ok b => ⟨1, [], Except.ok b⟩
    | Except.error e =>
      let r := retryLoop f backoff n (i + 1) (some e)
      ⟨r.attempts + 1, backoff ^ i :: r.delays, r.outcome⟩

def retry_fetch (f : ℕ → Except ε β) (retries : ℕ) (backoff : ℚ) : FetchTrace ε β :=
  retryLoop f backoff retries 0 none

/-! ### Progress reporter: `DualProgress`

Python (src/bot2.py:74-118; src/bot.py:75-120 is identical in `__init__` and
`_update`):
```
self.total = max(1, total)
self._last_percent = -1
self._last_time = 0.0
...
async def _update(self, current, done=False, extra=""):
    now = time.time()
    current = max(0, min(self.total, current))
    percent = int(current * 100 / self.total)
    ...
    if done or percent != self._last_percent and (percent - self._last_percent >= 2 or now - self._last_time >= 0.5):
        ... both sinks ...
        self._last_percent = percent
        self._last_time = now
```
Python precedence parses the guard as
`done or (percent != last and (percent - last >= 2 or now - last_time >= 0.5))`.
Wall-clock instants are ℚ; `current` is clamped to `[0, total]` first, so
`int(...)` of the float quotient is the floor of a non-negative quotient,
i.e. ℕ-division of `current*100` by `total`. -/

structure ProgressState where
  total : ℕ
  lastPercent : ℤ
  lastTime : ℚ
  startTime : ℚ
  deriving DecidableEq

/-- Constructor `DualProgress.__init__`: `total = max(1, total)`,
`_last_percent = -1`, `_last_time = 0.0`, `_start = now`. -/
def mkProgress (total : ℕ) (now : ℚ) : ProgressState :=
  ⟨max 1 total, -1, 0, now⟩

/-- Percent computation `int(current * 100 / self.total)` after the clamp
`current = max(0, min(self.total, current))`. -/
def percentOf (total : ℕ) (current : ℤ) : ℤ :=
  (((max 0 (min (total : ℤ) current)).toNat * 100) / total : ℕ)

/-- Method `DualProgress._update`, returning whether an emission (write to
both sinks) happened together with the updated throttle state. -/
def update (st : ProgressState) (now : ℚ) (current : ℤ) (done : Bool) :
    Bool × ProgressState :=
  if done = true ∨ (percentOf st.total current ≠ st.lastPercent ∧
      (2 ≤ percentOf st.total current - st.lastPercent ∨ 1/2 ≤ now - st.lastTime)) then
    (true, { st with lastPercent := percentOf st.total current, lastTime := now })
  else
    (false, st)

/-! ### Acquisition: `download_pack`

Python (src/bot2.py:193-238, src/bot.py:193-237):
```
sem = asyncio.Semaphore(8)
file_list = [None] * total
async def worker(idx, s):
    async with sem:
        if s.get("is_animated"): ext = "tgs"
        elif s.get("is_video"):  ext = "webm"
        else:                    ext = "png"
        ...
        out_path = os.path.join(folder, zero-padded idx + "." + ext)
        ...
        file_list[idx] = out_path
await asyncio.gather(*(worker(i, s) for i, s in enumerate(stickers)))
files = [x for x in file_list if x]
```
Concurrency model: the slot writes `file_list[idx] = out_path` are the only
shared-state mutations, and each is atomic on the event loop.  An execution
in which every fetch succeeds is therefore determined by the order in which
workers complete, i.e. by a permutation `order` of `range total`; the final
slot list is the fold of the slot writes over that order.  The filter
`if x` keeps non-empty paths (every written path is a non-empty string). -/

structure Sticker where
  is_animated : Bool
  is_video : Bool
  file_id : String
  deriving DecidableEq

def stickerExt (s : Sticker) : String :=
  if s.is_animated then "tgs" else if s.is_video then "webm" else "png"

/-- Zero-padding of the Python format spec `03d`: decimal digits,
left-padded with `0` to width 3. -/
def pad3 (n : ℕ) : String :=
  let s := toString n
  if s.length < 3 then String.mk (List.replicate (3 - s.length) '0') ++ s else s

/-- Output path: folder, POSIX separator, the zero-padded index, a dot and
the extension. -/
def outPath (folder : String) (idx : ℕ) (s : Sticker) : String :=
  folder ++ "/" ++ pad3 idx ++ "." ++ stickerExt s

def blankSticker : Sticker := ⟨false, false, ""⟩

/-- The slot list after all workers have completed, `order` being the order in
which the workers performed their `file_list[idx] = out_path` write. -/
def runWorkers (folder : String) (stickers : List Sticker) (order : List ℕ) :
    List (Option String) :=
  order.foldl
    (fun slots idx => slots.set idx (some (outPath folder idx (stickers.getD idx blankSticker))))
    (List.replicate stickers.length none)

/-- Final filter `files = [x for x in file_list if x]` of `download_pack`. -/
def download_pack_files (folder : String) (stickers : List Sticker) (order : List ℕ) :
    List String :=
  (runWorkers folder stickers order).filterMap id

/-! ### Conversion: `convert_animated` / `_convert_animated_blocking`

Python (src/bot2.py:270-321; src/bot.py:282-328 has the same structure):
```
if not _have("ffmpeg") or not _have("img2webp"):
    missing = []
    if not _have("ffmpeg"): missing.append("ffmpeg")
    if not _have("img2webp"): missing.append("img2webp (paket webp)")
    raise RuntimeError("Tool eksternal belum terpasang: " + comma-joined missing)
...
for i, file in enumerate(names, 1):
    ...
    try:
        if ext == ".tgs":
            if _have("rlottie-convert"):
                ... rlottie-convert ...; if frame_files: ... img2webp -> dst ...
            else:
                logging.info("skip .tgs ...")
        elif ext == ".webm":
            ... ffmpeg -> dst ...
        if os.path.exists(dst):
            out.append(dst)
    except Exception as e:
        logging.warning(...)
```
`tools` models `_have` (tool presence on PATH).  The external world of one
tool chain of one item is an oracle `run i`:
  `raised`    — some invocation raised (caught by the per-item handler);
  `produced`  — the chain ran and created `dst`;
  `noOutput`  — the chain ran without raising but created no `dst`
                (e.g. `.tgs` with an empty frame list).
Items whose branch invokes no tool (`.tgs` without `rlottie-convert`, or an
extension that is neither `.tgs` nor `.webm`) create no `dst`: `out_dir` is
freshly created and the `dst` name of each item is unique to it. -/

inductive AnimExt
  | tgs
  | webm
  | other
  deriving DecidableEq

structure AnimItem where
  name : String
  ext : AnimExt
  deriving DecidableEq

inductive ItemOutcome
  | produced
  | raised
  | noOutput
  deriving DecidableEq

def dstOf (out_dir : String) (it : AnimItem) : String :=
  out_dir ++ "/" ++ it.name ++ ".webp"

/-- Body of one iteration of the conversion loop: the `dst` appended for this
item, if any. -/
def convertItem (out_dir : String) (tools : String → Bool) (run : ℕ → ItemOutcome)
    (i : ℕ) (it : AnimItem) : Option String :=
  match it.ext with
  | AnimExt.tgs =>
      if tools "rlottie-convert" then
        match run i with
        | ItemOutcome.produced => some (dstOf out_dir it)
        | _ => none
      else none
  | AnimExt.webm =>
      match run i with
      | ItemOutcome.produced => some (dstOf out_dir it)
      | _ => none
  | AnimExt.other => none

/-- The conversion loop, starting at item index `i`. -/
def convertLoopFrom (out_dir : String) (tools : String → Bool) (run : ℕ → ItemOutcome) :
    ℕ → List AnimItem → List String
  | _, [] => []
  | i, it :: rest =>
    match convertItem out_dir tools run i it with
    | some s => s :: convertLoopFrom out_dir tools run (i + 1) rest
    | none => convertLoopFrom out_dir tools run (i + 1) rest

/-- The whole animated-conversion stage: the up-front tool check, then the
per-item loop.  `Except.error missing` models the `RuntimeError` raised when
the up-front check fails. -/
def convert_animated (out_dir : String) (tools : String → Bool) (run : ℕ → ItemOutcome)
    (names : List AnimItem) : Except (List String) (List String) :=
  if tools "ffmpeg" && tools "img2webp" then
    Except.ok (convertLoopFrom out_dir tools run 0 names)
  else
    Except.error ((if tools "ffmpeg" then [] else ["ffmpeg"]) ++
      (if tools "img2webp" then [] else ["img2webp (paket webp)"]))

/-- Which items have a tool chain that actually runs (and can thus raise or
produce a `dst`): `.webm` always (ffmpeg is present past the up-front check),
`.tgs` only when `rlottie-convert` is present. -/
def invocable (tools : String → Bool) (it : AnimItem) : Bool :=
  match it.ext with
  | AnimExt.tgs => tools "rlottie-convert"
  | AnimExt.webm => true
  | AnimExt.other => false

/-! ### Packaging & delivery: the loop in `handle_link`

Python (src/bot2.py:443-455, src/bot.py:464-477):
```
for idx, pack_files in enumerate(packs, 1):
    zip_buf = await asyncio.to_thread(build_pack_zip, pack, idx, pack_files)
    size = _zip_size(zip_buf)
    if size > 48 * 1024 * 1024 and len(pack_files) > 15:
        half = len(pack_files) // 2
        partA = ... build_pack_zip(..., pack_files[:half])
        partB = ... build_pack_zip(..., pack_files[half:])
        await send_zip_safely(message, ..._A.zip, partA)
        await send_zip_safely(message, ..._B.zip, partB)
    else:
        await send_zip_safely(message, ..., zip_buf)
```
`zipSize` abstracts `_zip_size(build_pack_zip(...))` as a function of the
member list (the metadata contribution of the pack name is not modelled; no
claim depends on it).  `sendGroup` returns, per group, the member lists of
the archives passed to `send_zip_safely`, in send order. -/

def CEILING : ℕ := 48 * 1024 * 1024

def sendGroup (zipSize : List α → ℕ) (g : List α) : List (List α) :=
  if CEILING < zipSize g ∧ 15 < g.length then
    [g.take (g.length / 2), g.drop (g.length / 2)]
  else
    [g]

/-- Member lists of all archives sent over the whole packing loop. -/
def packLoop (zipSize : List α → ℕ) (groups : List (List α)) : List (List α) :=
  (groups.map (sendGroup zipSize)).flatten

/-- src/bot2.py:433 (src/bot.py:455): the status text shown when conversion
returned no files. -/
def NO_CONVERT_MSG : String := "⚠️ Tidak ada file yang bisa dikonversi pada pack ini."

inductive RunOutcome (α : Type u)
  | nothingToConvert (msg : String)
  | delivered (archives : List (List α))

/-- The tail of `handle_link` after conversion (src/bot2.py:432-455):
`if not converted: ...nothing-to-convert status...; return` and otherwise
`packs = chunk_by_30(converted)` followed by the send loop. -/
def packageAndSend (zipSize : List α → ℕ) (converted : List α) : RunOutcome α :=
  if converted.isEmpty then
    RunOutcome.nothingToConvert NO_CONVERT_MSG
  else
    RunOutcome.delivered (packLoop zipSize (chunk_by_30 converted))

/-! ### Concrete instances used by witnesses and counterexamples -/

/-- Probe size function for the size-guard witnesses: any group of more than
15 members is "over the ceiling", smaller groups are tiny. -/
def szProbe : List ℕ → ℕ := fun l => if 15 < l.length then CEILING + 1 else 7

/-- Size function under which every built archive exceeds the ceiling. -/
def oversizedZip : List ℕ → ℕ := fun _ => CEILING + 1

def demoStickers : List Sticker :=
  [⟨false, false, "a"⟩, ⟨true, false, "b"⟩, ⟨false, true, "c"⟩]

/-- Tools available in the C7 counterexample: only `ffmpeg` is on PATH. -/
def webmOnlyTools : String → Bool := fun s => s == "ffmpeg"

/-- Tools available in the C7/C8 witnesses: `ffmpeg` and `img2webp`, but not
`rlottie-convert`. -/
def noRlottieTools : String → Bool := fun s => s == "ffmpeg" || s == "img2webp"

def demoRun : ℕ → ItemOutcome :=
  fun i => if i = 1 then ItemOutcome.raised else ItemOutcome.produced

def webmItem (n : String) : AnimItem := ⟨n, AnimExt.webm⟩



/-! ## Claim theorems -/

theorem chunkRec_nil : chunkRec ([] : List α) = [] := by
  rw [chunkRec]

theorem chunkRec_cons (files : List α) (h : files ≠ []) :
    chunkRec files = files.take 30 :: chunkRec (files.drop 30) := by
  match files with
  | [] => exact absurd rfl h
  | x :: xs => rw [chunkRec, List.drop_succ_cons]

theorem chunk_by_30_cons (files : List α) (h : files ≠ []) :
    chunk_by_30 files = files.take 30 :: chunk_by_30 (files.drop 30) := by
  have hpos : 0 < files.length := List.length_pos.mpr h
  unfold chunk_by_30
  have hlen : (files.length + 29) / 30 = ((files.drop 30).length + 29) / 30 + 1 := by
    simp only [List.length_drop]
    omega
  rw [hlen, List.range_succ_eq_map]
  simp only [List.map_cons, Nat.mul_zero, List.drop_zero, List.map_map]
  congr 1
  apply List.map_congr_left
  intro k _
  simp only [Function.comp_apply, List.drop_drop]
  congr 2
  omega

theorem chunk_by_30_eq_chunkRec (files : List α) : chunk_by_30 files = chunkRec files := by
  match files with
  | [] => simp [chunk_by_30, chunkRec_nil]
  | x :: xs =>
      rw [chunk_by_30_cons (x :: xs) (by simp), chunkRec_cons (x :: xs) (by simp),
        chunk_by_30_eq_chunkRec ((x :: xs).drop 30)]
termination_by files.length
decreasing_by
  simp only [List.length_drop, List.length_cons]
  omega

theorem chunkRec_flatten (files : List α) : (chunkRec files).flatten = files := by
  match files with
  | [] => rw [chunkRec_nil]; rfl
  | x :: xs =>
      rw [chunkRec_cons (x :: xs) (by simp)]
      rw [List.flatten_cons, chunkRec_flatten ((x :: xs).drop 30), List.take_append_drop]
termination_by files.length
decreasing_by
  simp only [List.length_drop, List.length_cons]
  omega

theorem chunkRec_ne_nil (files : List α) (g : List α) (hg : g ∈ chunkRec files) : g ≠ [] := by
  match files with
  | [] => rw [chunkRec_nil] at hg; exact absurd hg (List.not_mem_nil g)
  | x :: xs =>
      rw [chunkRec_cons (x :: xs) (by simp), List.mem_cons] at hg
      rcases hg with hg | hg
      · subst hg
        simp
      · exact chunkRec_ne_nil ((x :: xs).drop 30) g hg
termination_by files.length
decreasing_by
  simp only [List.length_drop, List.length_cons]
  omega

theorem chunkRec_dropLast_length (files : List α) (g : List α)
    (hg : g ∈ (chunkRec files).dropLast) : g.length = 30 := by
  match files with
  | [] => rw [chunkRec_nil] at hg; exact absurd hg (List.not_mem_nil g)
  | x :: xs =>
      rw [chunkRec_cons (x :: xs) (by simp)] at hg
      by_cases hrest : chunkRec ((x :: xs).drop 30) = []
      · rw [hrest] at hg
        exact absurd hg (List.not_mem_nil g)
      · rw [List.dropLast_cons_of_ne_nil hrest, List.mem_cons] at hg
        rcases hg with hg | hg
        · subst hg
          have hlong : 30 ≤ (x :: xs).length := by
            by_contra hshort
            have : (x :: xs).drop 30 = [] := List.drop_eq_nil_of_le (by omega)
            rw [this, chunkRec_nil] at hrest
            exact hrest rfl
          simp only [List.length_cons] at hlong
          simp only [List.length_take, List.length_cons]
          omega
        · exact chunkRec_dropLast_length ((x :: xs).drop 30) g hg
termination_by files.length
decreasing_by
  simp only [List.length_drop, List.length_cons]
  omega


/-- C3: `chunk_by_30` applied to a list of 0 items yields 0 groups; to 30
items, exactly 1 group of 30; to 31 items, exactly the groups of sizes
`[30, 1]`; to 65 items, exactly the groups of sizes `[30, 30, 5]`. -/
theorem chunk_by_30_sizes (xs : List α) :
    (xs.length = 0 → chunk_by_30 xs = []) ∧
    (xs.length = 30 → (chunk_by_30 xs).map List.length = [30]) ∧
    (xs.length = 31 → (chunk_by_30 xs).map List.length = [30, 1]) ∧
    (xs.length = 65 → (chunk_by_30 xs).map List.length = [30, 30, 5]) := by
  refine ⟨?_, ?_, ?_, ?_⟩ <;> intro h <;>
    simp [chunk_by_30, h, List.map_map, List.range_succ, Function.comp_def,
      List.length_take, List.length_drop]

theorem chunk_by_30_sizes_witness :
    chunk_by_30 ([] : List ℕ) = [] ∧
    (chunk_by_30 (List.range 65)).map List.length = [30, 30, 5] :=
  ⟨(chunk_by_30_sizes ([] : List ℕ)).1 rfl,
   (chunk_by_30_sizes (List.range 65)).2.2.2 (by decide)⟩

/-- C10: for every input list `xs`, the concatenation of the groups returned
by `chunk_by_30 xs` equals `xs`; every returned group is non-empty; and every
group except possibly the last has length exactly 30. -/
theorem chunk_by_30_partition (xs : List α) :
    (chunk_by_30 xs).flatten = xs ∧
    (∀ g ∈ chunk_by_30 xs, g ≠ []) ∧
    (∀ g ∈ (chunk_by_30 xs).dropLast, g.length = 30) := by
  rw [chunk_by_30_eq_chunkRec]
  exact ⟨chunkRec_flatten xs, fun g hg => chunkRec_ne_nil xs g hg,
    fun g hg => chunkRec_dropLast_length xs g hg⟩

theorem chunk_by_30_partition_witness :
    (chunk_by_30 (List.range 31)).flatten = List.range 31 ∧
    List.range 30 ≠ ([] : List ℕ) ∧
    (List.range 30).length = 30 :=
  ⟨(chunk_by_30_partition (List.range 31)).1,
   (chunk_by_30_partition (List.range 31)).2.1 (List.range 30) (by decide),
   (chunk_by_30_partition (List.range 31)).2.2 (List.range 30) (by decide)⟩

/-- C9: when the conversion stage returns an empty list of converted files,
`handle_link` reports the distinct "nothing to convert" status message and
terminates without invoking chunking, archive building, or any delivery send
(the outcome is the `nothingToConvert` status, not a `delivered` list). -/
theorem empty_conversion_short_circuit (zipSize : List α → ℕ) :
    packageAndSend zipSize [] = RunOutcome.nothingToConvert NO_CONVERT_MSG :=
  rfl

/-- C4: in the packing loop (`packLoop` = per-group `sendGroup`, concatenated
in order), every group whose built ZIP size exceeds `48*1024*1024` bytes and
whose member count is > 15 is sent as exactly two sub-archives, the first
`⌊n/2⌋` members and the rest, whose concatenation is the original group in
original order; every group whose ZIP size is at or below the ceiling is sent
as exactly one archive. -/
theorem size_guard_split (zipSize : List α → ℕ) (groups : List (List α)) :
    packLoop zipSize groups = (groups.map (sendGroup zipSize)).flatten ∧
    ∀ g ∈ groups,
      (CEILING < zipSize g → 15 < g.length →
        sendGroup zipSize g = [g.take (g.length / 2), g.drop (g.length / 2)] ∧
        g.take (g.length / 2) ++ g.drop (g.length / 2) = g ∧
        (g.take (g.length / 2)).length = g.length / 2) ∧
      (zipSize g ≤ CEILING → sendGroup zipSize g = [g]) := by
  refine ⟨rfl, fun g _ => ⟨fun h1 h2 => ?_, fun h => ?_⟩⟩
  · refine ⟨?_, List.take_append_drop _ _, ?_⟩
    · unfold sendGroup
      rw [if_pos ⟨h1, h2⟩]
    · rw [List.length_take]
      omega
  · unfold sendGroup
    rw [if_neg (fun hc => absurd hc.1 (not_lt.mpr h))]


theorem size_guard_split_witness :
    (sendGroup szProbe (List.range 16)
      = [(List.range 16).take ((List.range 16).length / 2),
         (List.range 16).drop ((List.range 16).length / 2)]) ∧
    sendGroup szProbe [0] = [[0]] :=
  ⟨(((size_guard_split szProbe [List.range 16, [0]]).2 (List.range 16)
      (by decide)).1 (by decide) (by decide)).1,
   ((size_guard_split szProbe [List.range 16, [0]]).2 [0] (by decide)).2 (by decide)⟩


/-- C5 counterexample: a 3-member group whose ZIP exceeds the ceiling is not
split (3 ≤ 15 members) and is passed to `send_zip_safely` as-is, so a ZIP of
size `CEILING + 1 > CEILING` is delivered: the claim "every ZIP passed to
`send_zip_safely` has size ≤ the ceiling" is false. -/
theorem ceiling_not_enforced_counterexample :
    packLoop oversizedZip [[0, 1, 2]] = [[0, 1, 2]] ∧
    CEILING < oversizedZip [0, 1, 2] := by
  constructor
  · rfl
  · decide

/-- C5 (amended): after the splitting logic has run, every archive passed to
`send_zip_safely` is either a whole group that did not trigger the guard
(its ZIP is at or below the ceiling, or it has at most 15 members — the
latter delivered best-effort even when over the ceiling), or one half of an
over-ceiling group of more than 15 members (halves are sent without a further
size check and may themselves exceed the ceiling). -/
theorem delivered_archive_provenance (zipSize : List α → ℕ) (groups : List (List α))
    (a : List α) (ha : a ∈ packLoop zipSize groups) :
    (a ∈ groups ∧ (zipSize a ≤ CEILING ∨ a.length ≤ 15)) ∨
    (∃ g ∈ groups, CEILING < zipSize g ∧ 15 < g.length ∧
      (a = g.take (g.length / 2) ∨ a = g.drop (g.length / 2))) := by
  unfold packLoop at ha
  rw [List.mem_flatten] at ha
  obtain ⟨l, hl, hal⟩ := ha
  rw [List.mem_map] at hl
  obtain ⟨g, hg, rfl⟩ := hl
  unfold sendGroup at hal
  by_cases hc : CEILING < zipSize g ∧ 15 < g.length
  · rw [if_pos hc] at hal
    refine Or.inr ⟨g, hg, hc.1, hc.2, ?_⟩
    simp only [List.mem_cons, List.not_mem_nil, or_false] at hal
    exact hal
  · rw [if_neg hc] at hal
    simp only [List.mem_cons, List.not_mem_nil, or_false] at hal
    subst hal
    rcases not_and_or.mp hc with h' | h'
    · exact Or.inl ⟨hg, Or.inl (not_lt.mp h')⟩
    · exact Or.inl ⟨hg, Or.inr (not_lt.mp h')⟩

theorem delivered_archive_provenance_witness :
    ([0, 1, 2] ∈ packLoop oversizedZip [[0, 1, 2]]) ∧
    (([0, 1, 2] ∈ [[0, 1, 2]] ∧
        (oversizedZip [0, 1, 2] ≤ CEILING ∨ ([0, 1, 2] : List ℕ).length ≤ 15)) ∨
      (∃ g ∈ [[0, 1, 2]], CEILING < oversizedZip g ∧ 15 < g.length ∧
        (([0, 1, 2] : List ℕ) = g.take (g.length / 2) ∨
          ([0, 1, 2] : List ℕ) = g.drop (g.length / 2)))) :=
  ⟨by decide,
   delivered_archive_provenance oversizedZip [[0, 1, 2]] [0, 1, 2] (by decide)⟩

/-- C2: for every URL whose fetch yields a transient status (or another
exception) on every attempt, `_retry_fetch_bytes` / `_retry_fetch_json`
(identical loops, body type `β`) makes exactly 3 attempts and then raises the
error of the last attempt, having scheduled a delay of `1.6^i` seconds after
each failed attempt `i` (0-based, the last included); if attempt `k` (0-based,
`k < 3`) is the first to succeed, exactly `k+1` attempts are made, the body of
attempt `k` is returned, and the delays scheduled are `1.6^0 … 1.6^(k-1)`. -/
theorem retry_fetch_policy (f : ℕ → Except ε β) (e : ℕ → ε) :
    ((∀ i, i < 3 → f i = Except.error (e i)) →
      retry_fetch f 3 (8/5)
        = ⟨3, [((8 : ℚ)/5) ^ 0, ((8 : ℚ)/5) ^ 1, ((8 : ℚ)/5) ^ 2],
            Except.error (some (e 2))⟩) ∧
    (∀ k b, k < 3 → (∀ i, i < k → f i = Except.error (e i)) →
      f k = Except.ok b →
      retry_fetch f 3 (8/5)
        = ⟨k + 1, (List.range k).map (fun i => ((8 : ℚ)/5) ^ i), Except.ok b⟩) := by
  constructor
  · intro hf
    simp [retry_fetch, retryLoop, hf 0 (by omega), hf 1 (by omega), hf 2 (by omega)]
  · intro k b hk hfail hok
    interval_cases k
    · simp [retry_fetch, retryLoop, hok]
    · simp [retry_fetch, retryLoop, hfail 0 (by omega), hok, List.range_succ]
    · simp [retry_fetch, retryLoop, hfail 0 (by omega), hfail 1 (by omega), hok,
        List.range_succ]

theorem retry_fetch_policy_witness :
    (retry_fetch (fun i => (Except.error i : Except ℕ ℕ)) 3 (8/5)
      = ⟨3, [((8 : ℚ)/5) ^ 0, ((8 : ℚ)/5) ^ 1, ((8 : ℚ)/5) ^ 2],
          Except.error (some 2)⟩) ∧
    (retry_fetch (fun _ => (Except.ok 7 : Except ℕ ℕ)) 3 (8/5)
      = ⟨0 + 1, (List.range 0).map (fun i => ((8 : ℚ)/5) ^ i), Except.ok 7⟩) :=
  ⟨(retry_fetch_policy (fun i => (Except.error i : Except ℕ ℕ)) id).1
      (fun _ _ => rfl),
   (retry_fetch_policy (fun _ => (Except.ok 7 : Except ℕ ℕ)) id).2 0 7
      (by omega) (fun i h => absurd h (by omega)) rfl⟩

/-- C6: `DualProgress._update` emits (writes to both sinks and updates
`_last_percent` / `_last_time`) exactly when the call is a completion call
(`done = true`), or the computed percent differs from the last emitted percent
and (the percent increase is ≥ 2 points or the wall-clock time since the last
emission is ≥ 0.5 s); in every other case nothing is emitted and the throttle
state is unchanged.  (In Python, `A or B and C` parses as `A or (B and C)`.) -/
theorem dual_progress_throttle (st : ProgressState) (now : ℚ) (current : ℤ)
    (done : Bool) :
    ((update st now current done).1 = true ↔
      (done = true ∨ (percentOf st.total current ≠ st.lastPercent ∧
        (2 ≤ percentOf st.total current - st.lastPercent ∨
          1/2 ≤ now - st.lastTime)))) ∧
    ((update st now current done).1 = true →
      (update st now current done).2
        = { st with lastPercent := percentOf st.total current, lastTime := now }) ∧
    ((update st now current done).1 = false →
      (update st now current done).2 = st) := by
  unfold update
  split_ifs with h
  · refine ⟨?_, fun _ => rfl, fun hc => absurd hc (by simp)⟩
    simpa using h
  · refine ⟨?_, fun hc => absurd hc (by simp), fun _ => rfl⟩
    simpa using h

theorem dual_progress_throttle_witness :
    (update (mkProgress 10 0) 1 5 false).1 = true ∧
    (update (mkProgress 10 0) 1 5 false).2
      = { mkProgress 10 0 with
            lastPercent := percentOf (mkProgress 10 0).total 5, lastTime := 1 } ∧
    (update (mkProgress 10 0) (1/4) 0 false).2 = mkProgress 10 0 :=
  ⟨(dual_progress_throttle (mkProgress 10 0) 1 5 false).1.mpr
      (Or.inr ⟨by decide, Or.inl (by decide)⟩),
   (dual_progress_throttle (mkProgress 10 0) 1 5 false).2.1
      ((dual_progress_throttle (mkProgress 10 0) 1 5 false).1.mpr
        (Or.inr ⟨by decide, Or.inl (by decide)⟩)),
   (dual_progress_throttle (mkProgress 10 0) (1/4) 0 false).2.2
      (by norm_num [update, mkProgress, percentOf])⟩

/-- Folding slot writes over a completion order: the length of the slot list
never changes. -/
theorem foldl_set_length (target : ℕ → α) (order : List ℕ) (slots : List (Option α)) :
    (order.foldl (fun sl idx => sl.set idx (some (target idx))) slots).length
      = slots.length := by
  induction order generalizing slots with
  | nil => rfl
  | cons o rest ih => rw [List.foldl_cons, ih, List.length_set]

/-- Folding slot writes over a completion order: slot `j` holds `target j`
exactly when some worker `j` ran (all writes to slot `j` write the same
value, so the completion order is irrelevant). -/
theorem foldl_set_getElem? (target : ℕ → α) (order : List ℕ) (slots : List (Option α))
    (j : ℕ) :
    (order.foldl (fun sl idx => sl.set idx (some (target idx))) slots)[j]?
      = if j ∈ order ∧ j < slots.length then some (some (target j)) else slots[j]? := by
  induction order generalizing slots with
  | nil => simp
  | cons o rest ih =>
      rw [List.foldl_cons, ih, List.length_set]
      by_cases hr : j ∈ rest ∧ j < slots.length
      · rw [if_pos hr, if_pos ⟨List.mem_cons.mpr (Or.inr hr.1), hr.2⟩]
      · rw [if_neg hr, List.getElem?_set]
        by_cases hoj : o = j
        · subst hoj
          rw [if_pos rfl]
          by_cases hlen : o < slots.length
          · rw [if_pos hlen, if_pos ⟨List.mem_cons_self o rest, hlen⟩]
          · rw [if_neg hlen, if_neg (fun hc => hlen hc.2),
              List.getElem?_eq_none (Nat.le_of_not_lt hlen)]
        · rw [if_neg hoj, if_neg]
          intro hc
          rcases List.mem_cons.mp hc.1 with h | h
          · exact hoj h.symm
          · exact hr ⟨h, hc.2⟩

theorem runWorkers_eq (folder : String) (stickers : List Sticker) (order : List ℕ)
    (hperm : order.Perm (List.range stickers.length)) :
    runWorkers folder stickers order
      = (List.range stickers.length).map
          (fun i => some (outPath folder i (stickers.getD i blankSticker))) := by
  apply List.ext_getElem?
  intro j
  unfold runWorkers
  rw [foldl_set_getElem? (fun idx => outPath folder idx (stickers.getD idx blankSticker))
    order (List.replicate stickers.length none) j]
  rw [List.length_replicate]
  have hmem : j ∈ order ↔ j < stickers.length := by
    rw [hperm.mem_iff, List.mem_range]
  by_cases hj : j < stickers.length
  · rw [if_pos ⟨hmem.mpr hj, hj⟩, List.getElem?_map, List.getElem?_range hj]
    rfl
  · rw [if_neg (fun hc => hj hc.2),
      List.getElem?_eq_none (by rw [List.length_replicate]; omega),
      List.getElem?_eq_none (by rw [List.length_map, List.length_range]; omega)]

/-- C1: for every pack of `N` stickers and every completion order of the
concurrent workers (modelled as a permutation of `range N`, since each worker
writes only slot `idx` of the preallocated slot list), a fully successful
`download_pack` run yields exactly `N` file paths, and the `j`-th path is the
one for sequence index `j` (zero-padded in the file name), i.e. the list is
ordered by ascending sequence index regardless of completion order. -/
theorem download_pack_order_independent (folder : String) (stickers : List Sticker)
    (order : List ℕ) (hperm : order.Perm (List.range stickers.length)) :
    download_pack_files folder stickers order
      = (List.range stickers.length).map
          (fun i => outPath folder i (stickers.getD i blankSticker)) ∧
    (download_pack_files folder stickers order).length = stickers.length := by
  have h : download_pack_files folder stickers order
      = (List.range stickers.length).map
          (fun i => outPath folder i (stickers.getD i blankSticker)) := by
    rw [download_pack_files, runWorkers_eq folder stickers order hperm,
      List.filterMap_map]
    exact List.filterMap_eq_map _ ▸ rfl
  refine ⟨h, ?_⟩
  rw [h, List.length_map, List.length_range]


theorem download_pack_order_independent_witness :
    download_pack_files "stickers/demo" demoStickers [2, 0, 1]
      = ["stickers/demo/000.png", "stickers/demo/001.tgs", "stickers/demo/002.webm"] ∧
    (download_pack_files "stickers/demo" demoStickers [2, 0, 1]).length = 3 :=
  ⟨(download_pack_order_independent "stickers/demo" demoStickers [2, 0, 1]
      (by decide)).1.trans (by decide),
   (download_pack_order_independent "stickers/demo" demoStickers [2, 0, 1]
      (by decide)).2⟩

/-- An item whose tool invocation raises is omitted (the per-item handler
catches the exception), whatever its kind. -/
theorem convertItem_raised (out_dir : String) (tools : String → Bool)
    (run : ℕ → ItemOutcome) (i : ℕ) (it : AnimItem)
    (h : run i = ItemOutcome.raised) :
    convertItem out_dir tools run i it = none := by
  cases hext : it.ext <;> simp [convertItem, hext, h]

theorem convertLoopFrom_append (out_dir : String) (tools : String → Bool)
    (run : ℕ → ItemOutcome) (i : ℕ) (xs ys : List AnimItem) :
    convertLoopFrom out_dir tools run i (xs ++ ys)
      = convertLoopFrom out_dir tools run i xs
        ++ convertLoopFrom out_dir tools run (i + xs.length) ys := by
  induction xs generalizing i with
  | nil => simp [convertLoopFrom]
  | cons x xs ih =>
      have harith : i + 1 + xs.length = i + (xs.length + 1) := by omega
      cases hc : convertItem out_dir tools run i x <;>
        simp [convertLoopFrom, hc, ih, harith]

/-- A run of items each of whose tool chain runs and produces its `dst`
contributes exactly its `dst` paths, in order. -/
theorem convertLoopFrom_all_produced (out_dir : String) (tools : String → Bool)
    (run : ℕ → ItemOutcome) (i : ℕ) (xs : List AnimItem)
    (hrun : ∀ k, k < xs.length → run (i + k) = ItemOutcome.produced)
    (hinv : ∀ it ∈ xs, invocable tools it = true) :
    convertLoopFrom out_dir tools run i xs = xs.map (dstOf out_dir) := by
  induction xs generalizing i with
  | nil => rfl
  | cons x xs ih =>
      have hx : run i = ItemOutcome.produced := by
        have := hrun 0 (by simp)
        rwa [Nat.add_zero] at this
      have hxinv : invocable tools x = true := hinv x (List.mem_cons_self x xs)
      have hitem : convertItem out_dir tools run i x = some (dstOf out_dir x) := by
        cases hext : x.ext
        · rw [invocable, hext] at hxinv
          simp [convertItem, hext, show tools "rlottie-convert" = true from hxinv, hx]
        · simp [convertItem, hext, hx]
        · rw [invocable, hext] at hxinv
          exact absurd hxinv (by simp)
      have hrec : convertLoopFrom out_dir tools run (i + 1) xs = xs.map (dstOf out_dir) := by
        refine ih (i + 1) (fun k hk => ?_) (fun it hit => hinv it (List.mem_cons_of_mem x hit))
        have := hrun (k + 1) (by simpa using Nat.succ_lt_succ hk)
        rwa [show i + (k + 1) = i + 1 + k by omega] at this
      simp [convertLoopFrom, hitem, hrec]


/-- C7 counterexample: a batch containing only a `.webm` item, with `ffmpeg`
present and `img2webp` absent.  The claim says the stage does not fail here
(img2webp is needed only for the `.tgs` pipeline); the up-front check
`if not _have("ffmpeg") or not _have("img2webp"): raise RuntimeError(...)`
(src/bot2.py:276-280, src/bot.py:283-287) raises regardless of batch
composition, so the stage fails as a whole. -/
theorem img2webp_required_counterexample :
    convert_animated "d" webmOnlyTools (fun _ => ItemOutcome.produced)
      [⟨"000", AnimExt.webm⟩]
      = Except.error ["img2webp (paket webp)"] := rfl

/-- C7 (amended): the animated-conversion stage raises its `RuntimeError`
exactly when `ffmpeg` or `img2webp` is missing, regardless of which kinds
appear in the batch (so a pure-`.webm` batch does fail when `img2webp` is
absent).  Graceful per-kind degradation exists only for `rlottie-convert`:
when it alone is missing, `.tgs` items are skipped (produce no output) while
`.webm` items whose invocation produces its output are still converted. -/
theorem animated_tool_check (out_dir : String) (tools : String → Bool)
    (run : ℕ → ItemOutcome) (names : List AnimItem) :
    ((∃ msgs, convert_animated out_dir tools run names = Except.error msgs) ↔
      (tools "ffmpeg" = false ∨ tools "img2webp" = false)) ∧
    (∀ i it, it.ext = AnimExt.tgs → tools "rlottie-convert" = false →
      convertItem out_dir tools run i it = none) ∧
    (∀ i it, it.ext = AnimExt.webm → run i = ItemOutcome.produced →
      convertItem out_dir tools run i it = some (dstOf out_dir it)) := by
  refine ⟨?_, ?_, ?_⟩
  · unfold convert_animated
    by_cases h1 : tools "ffmpeg" <;> by_cases h2 : tools "img2webp" <;> simp [h1, h2]
  · intro i it hext hrl
    simp [convertItem, hext, hrl]
  · intro i it hext hrun
    simp [convertItem, hext, hrun]


theorem animated_tool_check_witness :
    (∃ msgs, convert_animated "d" webmOnlyTools (fun _ => ItemOutcome.produced) []
        = Except.error msgs) ∧
    convertItem "d" noRlottieTools (fun _ => ItemOutcome.produced) 0
        ⟨"000", AnimExt.tgs⟩ = none ∧
    convertItem "d" noRlottieTools (fun _ => ItemOutcome.produced) 1
        ⟨"001", AnimExt.webm⟩ = some (dstOf "d" ⟨"001", AnimExt.webm⟩) :=
  ⟨(animated_tool_check "d" webmOnlyTools (fun _ => ItemOutcome.produced) []).1.mpr
      (Or.inr rfl),
   (animated_tool_check "d" noRlottieTools (fun _ => ItemOutcome.produced) []).2.1 0
      ⟨"000", AnimExt.tgs⟩ rfl rfl,
   (animated_tool_check "d" noRlottieTools (fun _ => ItemOutcome.produced) []).2.2 1
      ⟨"001", AnimExt.webm⟩ rfl rfl⟩

/-- C8: in animated conversion, if the external-tool invocation of exactly one
item
raises (the item at position `pre.length`) and every other item converts
successfully, the stage does not raise; the output has length
(input length − 1), omits exactly the failing item, and preserves the
relative order of the rest. -/
theorem single_failure_tolerance (out_dir : String) (tools : String → Bool)
    (run : ℕ → ItemOutcome) (pre post : List AnimItem) (bad : AnimItem)
    (hff : tools "ffmpeg" = true) (hiw : tools "img2webp" = true)
    (hpre : ∀ k, k < pre.length → run k = ItemOutcome.produced)
    (hbad : run pre.length = ItemOutcome.raised)
    (hpost : ∀ k, k < post.length → run (pre.length + 1 + k) = ItemOutcome.produced)
    (hinv : ∀ it ∈ pre ++ bad :: post, invocable tools it = true) :
    convert_animated out_dir tools run (pre ++ bad :: post)
      = Except.ok ((pre ++ post).map (dstOf out_dir)) ∧
    ((pre ++ post).map (dstOf out_dir)).length
      = (pre ++ bad :: post).length - 1 := by
  constructor
  · unfold convert_animated
    rw [if_pos (by rw [hff, hiw]; rfl)]
    congr 1
    rw [convertLoopFrom_append,
      convertLoopFrom_all_produced out_dir tools run 0 pre
        (fun k hk => by simpa using hpre k hk)
        (fun it hit => hinv it (List.mem_append_left _ hit))]
    have hbadstep : convertLoopFrom out_dir tools run (0 + pre.length) (bad :: post)
        = convertLoopFrom out_dir tools run (0 + pre.length + 1) post := by
      rw [convertLoopFrom,
        convertItem_raised out_dir tools run _ bad (by simpa using hbad)]
    rw [hbadstep,
      convertLoopFrom_all_produced out_dir tools run (0 + pre.length + 1) post
        (fun k hk => by
          have := hpost k hk
          rwa [show pre.length + 1 + k = 0 + pre.length + 1 + k by omega] at this)
        (fun it hit =>
          hinv it (List.mem_append_right _ (List.mem_cons_of_mem bad hit))),
      List.map_append]
  · simp only [List.length_map, List.length_append, List.length_cons]
    omega



theorem single_failure_tolerance_witness :
    convert_animated "d" noRlottieTools demoRun
        ([webmItem "000"] ++ webmItem "001" :: [webmItem "002"])
      = Except.ok (([webmItem "000"] ++ [webmItem "002"]).map (dstOf "d")) ∧
    (([webmItem "000"] ++ [webmItem "002"]).map (dstOf "d")).length
      = ([webmItem "000"] ++ webmItem "001" :: [webmItem "002"]).length - 1 :=
  single_failure_tolerance "d" noRlottieTools demoRun
    [webmItem "000"] [webmItem "002"] (webmItem "001")
    rfl rfl (by decide) rfl (by decide) (by decide)

end Tele2Wa
